import Mathlib

/-
Verification development for the xllm repository (CLI client + obfuscating
TCP relay `xllm-proxy`).

The relay-related code lives in `src/xllm-proxy/src/main.rs` (server side)
and `src/xllm/src/utils/proxy/mod.rs` (client side).  Both sides share the
same byte-level envelope: AES-256-GCM with the fixed pre-shared key
`OBFUSCATION_KEY`, payload layout `nonce(12) ++ ciphertext ++ tag(16)`,
inner objects serialized with serde_json.

Strings are modelled as lists of bytes (`List Nat`, each entry < 256), so
maps, JSON documents and wire frames are all plain byte lists.

The AES-256-GCM cipher used by the code via the `aes_gcm` crate is embedded
here bit-for-bit (NIST SP 800-38D / FIPS-197); theorems
`aes256_matches_fips197_vector` and `gcm_matches_nist_vector` check the
embedding against the standard test vectors, so statements about
encryption and decryption below are statements about the real cipher the
code runs.
-/

set_option maxRecDepth 100000

/-- Packed AES S-box: byte `i` of this constant (little-endian byte order)
is `S[i]` from FIPS-197, i.e. the affine transform of the inverse of `i`
in GF(2^8).  Verified against FIPS-197 below. -/
def sboxPacked : Nat :=
  2869618975290639062594974519597816386035077209210385677284518162336985023502962151465775969507961862820568736543004676439868535775640188584098917533413284844376797297285941524888791401501466624530423689326528054213168201056672989590893583853414110162539122864583953358348775951166211353578440977400428507475679327181038682772945817200201960445064847785221508011893952350688324234443749897213621340677040612747745615276448919507935121141307752692835344166708617454322778699219895865633266409040561742768581056182730443599545881830075941537620590442514083341749674612746994879540562701631131184186066652929592955206755

/-- AES S-box lookup. -/
def sbox (b : Nat) : Nat := (sboxPacked >>> (8 * b)) &&& 255

/-- Big-endian bytes-to-integer conversion. -/
def bytesToNat (bs : List Nat) : Nat := bs.foldl (fun a b => a * 256 + b) 0

/-- Big-endian integer-to-bytes conversion, fixed width `len`. -/
def natToBytes (len n : Nat) : List Nat :=
  (List.range len).map (fun i => (n >>> (8 * (len - 1 - i))) &&& 255)

/-- AES key-schedule word rotation. -/
def rotWord (w : Nat) : Nat := (((w <<< 8) ||| (w >>> 24)) &&& 0xFFFFFFFF)

/-- AES key-schedule S-box substitution on a 32-bit word. -/
def subWord (w : Nat) : Nat :=
  (sbox ((w >>> 24) &&& 255) <<< 24) ||| (sbox ((w >>> 16) &&& 255) <<< 16) |||
  (sbox ((w >>> 8) &&& 255) <<< 8) ||| sbox (w &&& 255)

/-- AES round constants (index 1..7 used by AES-256). -/
def rconVal (j : Nat) : Nat := [0, 1, 2, 4, 8, 16, 32, 64].getD j 0

/-- Next word of the AES-256 key schedule given all previous words. -/
def nextWord (ws : List Nat) : Nat :=
  let i := ws.length
  let prev := ws.getD (i - 1) 0
  let back := ws.getD (i - 8) 0
  let temp :=
    if i % 8 = 0 then subWord (rotWord prev) ^^^ (rconVal (i / 8) <<< 24)
    else if i % 8 = 4 then subWord prev
    else prev
  back ^^^ temp

/-- Iterate the key schedule `n` more words. -/
def expandWords (ws : List Nat) : Nat → List Nat
  | 0 => ws
  | n+1 => expandWords (ws ++ [nextWord ws]) n

/-- The eight initial 32-bit words of a 32-byte AES-256 key. -/
def keyWords (key : List Nat) : List Nat :=
  (List.range 8).map (fun i => bytesToNat ((key.drop (4 * i)).take 4))

/-- Full AES-256 key schedule: 60 words (15 round keys). -/
def roundKeys (key : List Nat) : List Nat := expandWords (keyWords key) 52

/-- Bytes of round key `round` in state order (column-major, as FIPS-197). -/
def roundKeyBytes (ws : List Nat) (round : Nat) : List Nat :=
  (List.range 16).map (fun i => (ws.getD (4 * round + i / 4) 0 >>> (8 * (3 - i % 4))) &&& 255)

/-- Pointwise XOR of two byte lists (zip semantics). -/
def xorBytes (a b : List Nat) : List Nat := List.zipWith (fun x y => x ^^^ y) a b

/-- AES SubBytes on a flat 16-byte state. -/
def subBytesL (s : List Nat) : List Nat := s.map sbox

/-- AES ShiftRows on a flat 16-byte state (index `r + 4*c`). -/
def shiftRowsL (s : List Nat) : List Nat :=
  (List.range 16).map (fun i => s.getD (i % 4 + 4 * ((i / 4 + i % 4) % 4)) 0)

/-- Multiplication by x in GF(2^8) mod the AES polynomial. -/
def mul2 (b : Nat) : Nat := ((b <<< 1) &&& 255) ^^^ (if b &&& 128 = 128 then 27 else 0)

/-- Multiplication by x+1 in GF(2^8). -/
def mul3 (b : Nat) : Nat := mul2 b ^^^ b

/-- AES MixColumns on a flat 16-byte state. -/
def mixColumnsL (s : List Nat) : List Nat :=
  (List.range 16).map (fun i =>
    let c := i / 4
    let a := fun j => s.getD (4 * c + j) 0
    match i % 4 with
    | 0 => mul2 (a 0) ^^^ mul3 (a 1) ^^^ a 2 ^^^ a 3
    | 1 => a 0 ^^^ mul2 (a 1) ^^^ mul3 (a 2) ^^^ a 3
    | 2 => a 0 ^^^ a 1 ^^^ mul2 (a 2) ^^^ mul3 (a 3)
    | _ => mul3 (a 0) ^^^ a 1 ^^^ a 2 ^^^ mul2 (a 3))

/-- One middle AES round. -/
def aesRound (ws : List Nat) (r : Nat) (s : List Nat) : List Nat :=
  xorBytes (mixColumnsL (shiftRowsL (subBytesL s))) (roundKeyBytes ws r)

/-- AES-256 single-block encryption (14 rounds) over a 16-byte state. -/
def aesEncryptBlock (ws : List Nat) (block : List Nat) : List Nat :=
  let s0 := xorBytes block (roundKeyBytes ws 0)
  let s := (List.range 13).foldl (fun s i => aesRound ws (i + 1) s) s0
  xorBytes (shiftRowsL (subBytesL s)) (roundKeyBytes ws 14)

/-- AES-256 block encryption on a 128-bit value, given the expanded key. -/
def aesEncW (ws : List Nat) (block : Nat) : Nat :=
  bytesToNat (aesEncryptBlock ws (natToBytes 16 block))

/-- AES-256 block encryption on a 128-bit value, given the raw key. -/
def aesEncNat (key : List Nat) (block : Nat) : Nat :=
  aesEncW (roundKeys key) block

/-- GHASH reduction constant R (SP 800-38D), in big-endian integer form. -/
def gcmR : Nat := 0xE1 <<< 120

/-- Multiplication in GF(2^128) with GCM's bit ordering (blocks as
big-endian 128-bit integers, GCM bit 0 = the integer's most significant
bit), following the shift-and-add algorithm of SP 800-38D. -/
def gfMul (x y : Nat) : Nat :=
  ((List.range 128).foldl (fun (zv : Nat × Nat) i =>
    let z := zv.1
    let v := zv.2
    let z' := if (x >>> (127 - i)) &&& 1 = 1 then z ^^^ v else z
    let v' := if v &&& 1 = 1 then (v >>> 1) ^^^ gcmR else v >>> 1
    (z', v')) (0, y)).1

/-- GHASH over a list of 128-bit blocks. -/
def ghash (h : Nat) (blocks : List Nat) : Nat :=
  blocks.foldl (fun y b => gfMul (y ^^^ b) h) 0

/-- Zero-pad a byte list to one 16-byte block. -/
def pad16 (bs : List Nat) : List Nat := bs.take 16 ++ List.replicate (16 - bs.length) 0

/-- Split a byte list into zero-padded 128-bit blocks (fuel variant). -/
def toBlocks16Aux : Nat → List Nat → List Nat
  | 0, _ => []
  | _+1, [] => []
  | f+1, bs => bytesToNat (pad16 bs) :: toBlocks16Aux f (bs.drop 16)

/-- Split a byte list into zero-padded 128-bit blocks. -/
def toBlocks16 (bs : List Nat) : List Nat := toBlocks16Aux bs.length bs

/-- GCM pre-counter block J0 for a 96-bit nonce: `IV with 0^31 1`. -/
def j0Of (nonce : List Nat) : Nat := (bytesToNat nonce <<< 32) ||| 1

/-- GCM 32-bit counter increment applied `i` times to J0. -/
def ctr32 (j0 i : Nat) : Nat := ((j0 >>> 32) <<< 32) ||| ((j0 + i) &&& 0xFFFFFFFF)

/-- First `len` bytes of the GCM CTR keystream (counters J0+1, J0+2, ...). -/
def keystreamBytes (ws : List Nat) (j0 len : Nat) : List Nat :=
  (((List.range ((len + 15) / 16)).map (fun i => aesEncW ws (ctr32 j0 (i + 1)))).flatMap
    (natToBytes 16)).take len

/-- GCM ciphertext: plaintext XOR keystream. -/
def gcmCiphertext (key nonce pt : List Nat) : List Nat :=
  xorBytes pt (keystreamBytes (roundKeys key) (j0Of nonce) pt.length)

/-- GCM authentication tag over a ciphertext (no associated data, as in the
repository): `E(K, J0) XOR GHASH(H, C padded with the length block)`. -/
def gcmTag (key nonce ct : List Nat) : Nat :=
  aesEncNat key (j0Of nonce) ^^^ ghash (aesEncNat key 0) (toBlocks16 ct ++ [8 * ct.length])

/-- AES-256-GCM encryption: returns `ciphertext ++ tag` (the `aes_gcm`
crate's `encrypt` output). -/
def gcmEncrypt (key nonce pt : List Nat) : List Nat :=
  let ct := gcmCiphertext key nonce pt
  ct ++ natToBytes 16 (gcmTag key nonce ct)

/-- AES-256-GCM decryption of a `ciphertext ++ tag` buffer (the `aes_gcm`
crate's `decrypt`): fails if the buffer cannot hold a tag or if the
recomputed tag differs; never returns data on failure. -/
def gcmDecrypt (key nonce c : List Nat) : Option (List Nat) :=
  if c.length < 16 then none
  else
    let ct := c.take (c.length - 16)
    let tagB := c.drop (c.length - 16)
    if natToBytes 16 (gcmTag key nonce ct) = tagB then
      some (xorBytes ct (keystreamBytes (roundKeys key) (j0Of nonce) ct.length))
    else none

/-- The AES-256 embedding reproduces the FIPS-197 appendix C.3 vector. -/
theorem aes256_matches_fips197_vector :
    aesEncryptBlock (roundKeys (List.range 32))
      [0x00, 0x11, 0x22, 0x33, 0x44, 0x55, 0x66, 0x77,
       0x88, 0x99, 0xaa, 0xbb, 0xcc, 0xdd, 0xee, 0xff] =
      [0x8e, 0xa2, 0xb7, 0xca, 0x51, 0x67, 0x45, 0xbf,
       0xea, 0xfc, 0x49, 0x90, 0x4b, 0x49, 0x60, 0x89] := by decide

/-- The GCM embedding reproduces the NIST AES-256-GCM vector with zero key,
zero nonce and one zero plaintext block. -/
theorem gcm_matches_nist_vector :
    gcmEncrypt (List.replicate 32 0) (List.replicate 12 0) (List.replicate 16 0) =
      [0xce, 0xa7, 0x40, 0x3d, 0x4d, 0x60, 0x6b, 0x6e,
       0x07, 0x4e, 0xc5, 0xd3, 0xba, 0xf3, 0x9d, 0x18,
       0xd0, 0xd1, 0xc8, 0xa7, 0x99, 0x99, 0x6b, 0xf0,
       0x26, 0x5b, 0x98, 0xb5, 0xd4, 0x8a, 0xb9, 0x19] := by decide

/-
Data model.  These mirror the Rust structs declared identically in
`src/xllm-proxy/src/main.rs` (lines 12-36) and
`src/xllm/src/utils/proxy/mod.rs` (lines 14-38).  Rust `String` and
`Vec<u8>` both become byte lists; `HashMap<String, String>` becomes an
association list of byte strings (serde_json serializes the map in its
iteration order; the claims below never depend on that order).
-/

structure HttpRequest where
  method : List Nat
  url : List Nat
  headers : List (List Nat × List Nat)
  body : List Nat
deriving Repr, DecidableEq

structure HttpResponse where
  status_code : Nat
  headers : List (List Nat × List Nat)
  body : List Nat
deriving Repr, DecidableEq

structure ProxyRequest where
  proxy_url : List Nat
  request_object : List Nat
deriving Repr, DecidableEq

structure ProxyResponse where
  response_object : List Nat
deriving Repr, DecidableEq

/-- ASCII bytes of a Lean string literal (used only for ASCII names). -/
def bytesOfAscii (s : String) : List Nat := s.data.map (fun c => c.toNat)

/-
serde_json serialization model.  serde_json emits compact JSON:
`"key":value` pairs in struct declaration order, strings with `"`, `\`
and control characters escaped, byte vectors as decimal number arrays.
Byte literals below: 34 is the double quote, 58 `:`, 44 `,`, 91 `[`,
93 `]`, 123 and 125 the braces, 92 the backslash.
-/

/-- Lowercase hex digit as an ASCII byte. -/
def hexDigit (n : Nat) : Nat := if n < 10 then 48 + n else 87 + n

/-- serde_json escaping of one byte inside a JSON string. -/
def escapeByte (b : Nat) : List Nat :=
  if b = 34 then [92, 34]
  else if b = 92 then [92, 92]
  else if b = 8 then [92, 98]
  else if b = 9 then [92, 116]
  else if b = 10 then [92, 110]
  else if b = 12 then [92, 102]
  else if b = 13 then [92, 114]
  else if b < 32 then [92, 117, 48, 48, hexDigit (b / 16), hexDigit (b % 16)]
  else [b]

/-- JSON string serialization of a byte string. -/
def jsonStr (s : List Nat) : List Nat := [34] ++ s.flatMap escapeByte ++ [34]

/-- Decimal ASCII digits of a natural number (fuel variant). -/
def decBytesAux : Nat → Nat → List Nat
  | 0, _ => []
  | f+1, n => if n < 10 then [48 + n] else decBytesAux f (n / 10) ++ [48 + n % 10]

/-- Decimal ASCII digits of a natural number. -/
def decBytes (n : Nat) : List Nat := decBytesAux (n + 1) n

/-- Comma-separated concatenation. -/
def commaJoin : List (List Nat) → List Nat
  | [] => []
  | [x] => x
  | x :: y :: rest => x ++ [44] ++ commaJoin (y :: rest)

/-- JSON serialization of a `Vec<u8>` as a decimal number array. -/
def serializeByteArr (bs : List Nat) : List Nat :=
  [91] ++ commaJoin (bs.map decBytes) ++ [93]

/-- JSON serialization of a `HashMap<String, String>`. -/
def serializeStrMap (hs : List (List Nat × List Nat)) : List Nat :=
  [123] ++ commaJoin (hs.map (fun kv => jsonStr kv.1 ++ [58] ++ jsonStr kv.2)) ++ [125]

def keyMethod : List Nat := bytesOfAscii "method"
def keyUrl : List Nat := bytesOfAscii "url"
def keyHeaders : List Nat := bytesOfAscii "headers"
def keyBody : List Nat := bytesOfAscii "body"
def keyStatusCode : List Nat := bytesOfAscii "status_code"
def keyProxyUrl : List Nat := bytesOfAscii "proxy_url"
def keyRequestObject : List Nat := bytesOfAscii "request_object"
def keyResponseObject : List Nat := bytesOfAscii "response_object"

/-- serde_json serialization of `HttpRequest`
(`serde_json::to_vec(http_request)`). -/
def serializeHttpRequest (x : HttpRequest) : List Nat :=
  [123] ++ jsonStr keyMethod ++ [58] ++ jsonStr x.method ++ [44]
  ++ jsonStr keyUrl ++ [58] ++ jsonStr x.url ++ [44]
  ++ jsonStr keyHeaders ++ [58] ++ serializeStrMap x.headers ++ [44]
  ++ jsonStr keyBody ++ [58] ++ serializeByteArr x.body ++ [125]

/-- serde_json serialization of `HttpResponse`. -/
def serializeHttpResponse (r : HttpResponse) : List Nat :=
  [123] ++ jsonStr keyStatusCode ++ [58] ++ decBytes r.status_code ++ [44]
  ++ jsonStr keyHeaders ++ [58] ++ serializeStrMap r.headers ++ [44]
  ++ jsonStr keyBody ++ [58] ++ serializeByteArr r.body ++ [125]

/-- serde_json serialization of `ProxyRequest` (the request frame the
client writes to the TCP stream, `src/xllm/src/utils/proxy/mod.rs` line 126). -/
def serializeProxyRequest (q : ProxyRequest) : List Nat :=
  [123] ++ jsonStr keyProxyUrl ++ [58] ++ jsonStr q.proxy_url ++ [44]
  ++ jsonStr keyRequestObject ++ [58] ++ serializeByteArr q.request_object ++ [125]

/-- serde_json serialization of `ProxyResponse` (the response frame the
relay writes back, `src/xllm-proxy/src/main.rs` line 97). -/
def serializeProxyResponse (r : ProxyResponse) : List Nat :=
  [123] ++ jsonStr keyResponseObject ++ [58] ++ serializeByteArr r.response_object ++ [125]

/-
serde_json deserialization model: a small JSON parser over byte lists,
covering the grammar the repository exchanges (objects, arrays,
non-negative integers, strings; string unescaping handles quote and
backslash).  Field lookup is order-independent and unknown fields are
ignored, as serde derives them by default; a missing or ill-typed field
makes deserialization fail, matching serde's error behavior.
-/

inductive Json where
  | jnull
  | jbool (b : Bool)
  | jnum (n : Nat)
  | jstr (s : List Nat)
  | jarr (xs : List Json)
  | jobj (kvs : List (List Nat × Json))
deriving Repr

/-- Skip JSON whitespace. -/
def skipWs : List Nat → List Nat
  | [] => []
  | b :: r => if b = 32 || b = 9 || b = 10 || b = 13 then skipWs r else b :: r

/-- Parse a JSON string body after the opening quote; returns the bytes and
the rest of the input. -/
def parseStrAux : List Nat → Option (List Nat × List Nat)
  | [] => none
  | 34 :: r => some ([], r)
  | 92 :: 34 :: r => (parseStrAux r).map (fun p => (34 :: p.1, p.2))
  | 92 :: 92 :: r => (parseStrAux r).map (fun p => (92 :: p.1, p.2))
  | 92 :: _ => none
  | b :: r => (parseStrAux r).map (fun p => (b :: p.1, p.2))

/-- Consume a run of decimal digits. -/
def parseDigits : List Nat → Nat → Nat × List Nat
  | [], acc => (acc, [])
  | b :: r, acc =>
    if 48 ≤ b ∧ b ≤ 57 then parseDigits r (acc * 10 + (b - 48)) else (acc, b :: r)

mutual

/-- Parse one JSON value (fuel-bounded recursion). -/
def parseValue : Nat → List Nat → Option (Json × List Nat)
  | 0, _ => none
  | f+1, input =>
    match skipWs input with
    | 110 :: 117 :: 108 :: 108 :: r => some (.jnull, r)
    | 116 :: 114 :: 117 :: 101 :: r => some (.jbool true, r)
    | 102 :: 97 :: 108 :: 115 :: 101 :: r => some (.jbool false, r)
    | 34 :: r => (parseStrAux r).map (fun p => (.jstr p.1, p.2))
    | 91 :: r =>
      (match skipWs r with
       | 93 :: r2 => some (.jarr [], r2)
       | s => (parseArrItems f s).map (fun p => (.jarr p.1, p.2)))
    | 123 :: r =>
      (match skipWs r with
       | 125 :: r2 => some (.jobj [], r2)
       | s => (parseObjItems f s).map (fun p => (.jobj p.1, p.2)))
    | b :: r =>
      if 48 ≤ b ∧ b ≤ 57 then
        let p := parseDigits (b :: r) 0
        some (.jnum p.1, p.2)
      else none
    | [] => none

/-- Parse the items of a non-empty JSON array up to the closing bracket. -/
def parseArrItems : Nat → List Nat → Option (List Json × List Nat)
  | 0, _ => none
  | f+1, s => do
    let (v, r) ← parseValue f s
    match skipWs r with
    | 44 :: r2 => (parseArrItems f (skipWs r2)).map (fun p => (v :: p.1, p.2))
    | 93 :: r2 => some ([v], r2)
    | _ => none

/-- Parse the members of a non-empty JSON object up to the closing brace. -/
def parseObjItems : Nat → List Nat → Option (List (List Nat × Json) × List Nat)
  | 0, _ => none
  | f+1, s =>
    match skipWs s with
    | 34 :: r => do
      let (k, r1) ← parseStrAux r
      match skipWs r1 with
      | 58 :: r2 => do
        let (v, r3) ← parseValue f (skipWs r2)
        match skipWs r3 with
        | 44 :: r4 => (parseObjItems f (skipWs r4)).map (fun p => ((k, v) :: p.1, p.2))
        | 125 :: r4 => some ([(k, v)], r4)
        | _ => none
      | _ => none
    | _ => none

end

/-- Parse a complete JSON document (whole input must be consumed). -/
def parseJson (bs : List Nat) : Option Json :=
  match parseValue (bs.length + 1) bs with
  | some (v, r) => if skipWs r = [] then some v else none
  | none => none

/-- Look a field up in a JSON object. -/
def jLookup (k : List Nat) (kvs : List (List Nat × Json)) : Option Json :=
  (kvs.find? (fun kv => kv.1 == k)).map (fun kv => kv.2)

/-- Read a JSON value as a Rust `String`. -/
def jAsStr : Json → Option (List Nat)
  | .jstr s => some s
  | _ => none

/-- Read a JSON value as a Rust `Vec<u8>` (each element must fit in u8). -/
def jAsByteArr : Json → Option (List Nat)
  | .jarr xs => xs.mapM (fun j => match j with
      | .jnum n => if n < 256 then some n else none
      | _ => none)
  | _ => none

/-- Read a JSON value as a Rust `u16`. -/
def jAsU16 : Json → Option Nat
  | .jnum n => if n < 65536 then some n else none
  | _ => none

/-- Read a JSON value as a `HashMap<String, String>`. -/
def jAsStrMap : Json → Option (List (List Nat × List Nat))
  | .jobj kvs => kvs.mapM (fun kv => (jAsStr kv.2).map (fun v => (kv.1, v)))
  | _ => none

/-- serde_json deserialization of `ProxyRequest`
(`serde_json::from_slice(buffer)`, `src/xllm-proxy/src/main.rs` line 52). -/
def parseProxyRequest (bs : List Nat) : Option ProxyRequest :=
  match parseJson bs with
  | some (.jobj kvs) => do
    let u ← jLookup keyProxyUrl kvs >>= jAsStr
    let ro ← jLookup keyRequestObject kvs >>= jAsByteArr
    some ⟨u, ro⟩
  | _ => none

/-- serde_json deserialization of `HttpRequest`
(`src/xllm-proxy/src/main.rs` line 119). -/
def parseHttpRequest (bs : List Nat) : Option HttpRequest :=
  match parseJson bs with
  | some (.jobj kvs) => do
    let m ← jLookup keyMethod kvs >>= jAsStr
    let u ← jLookup keyUrl kvs >>= jAsStr
    let hs ← jLookup keyHeaders kvs >>= jAsStrMap
    let b ← jLookup keyBody kvs >>= jAsByteArr
    some ⟨m, u, hs, b⟩
  | _ => none

/-- serde_json deserialization of `HttpResponse`
(`src/xllm/src/utils/proxy/mod.rs` line 202). -/
def parseHttpResponse (bs : List Nat) : Option HttpResponse :=
  match parseJson bs with
  | some (.jobj kvs) => do
    let sc ← jLookup keyStatusCode kvs >>= jAsU16
    let hs ← jLookup keyHeaders kvs >>= jAsStrMap
    let b ← jLookup keyBody kvs >>= jAsByteArr
    some ⟨sc, hs, b⟩
  | _ => none

/-
Repository functions.  Error values correspond to the distinct
`anyhow::anyhow!` messages in the source.
-/

inductive ProxyError where
  /-- message `Invalid encrypted data: too short` / `Invalid encrypted response: too short` -/
  | tooShort
  /-- message `Decryption failed: ...` (AEAD tag check or short ciphertext) -/
  | decryptionFailed
  /-- message `Failed to deserialize decrypted request/response: ...` -/
  | deserializeFailed
  /-- message `Unsupported HTTP method: ...` carrying the uppercased method -/
  | unsupportedMethod (m : List Nat)
  /-- outbound `reqwest` send failure (`req_builder.send().await?`) -/
  | upstreamFailed
deriving Repr, DecidableEq

/-- Pre-shared 256-bit key, identical in both source files:
`b"xllm_secure_proxy_key_2024_v1.0!"`. -/
def OBFUSCATION_KEY : List Nat := bytesOfAscii "xllm_secure_proxy_key_2024_v1.0!"

/-- Byte-level encryption shared by `encrypt_request_object`
(`src/xllm/src/utils/proxy/mod.rs` lines 171-185) and
`encrypt_response_object` (`src/xllm-proxy/src/main.rs` lines 125-139):
AES-256-GCM under `OBFUSCATION_KEY`, output `nonce ++ ciphertext ++ tag`.
The code draws the 12-byte nonce from `OsRng`; it is a parameter here, so
every statement below quantifies over every nonce the encryptor may draw. -/
def encryptBytes (nonce pt : List Nat) : List Nat :=
  nonce ++ gcmEncrypt OBFUSCATION_KEY nonce pt

/-- Byte-level decryption shared by `decrypt_request_object`
(`src/xllm-proxy/src/main.rs` lines 104-117) and `decrypt_response_object`
(`src/xllm/src/utils/proxy/mod.rs` lines 187-200): rejects inputs shorter
than the 12-byte nonce, splits `nonce ++ rest` and runs AES-256-GCM
decryption on `rest`. -/
def decryptBytes (b : List Nat) : Except ProxyError (List Nat) :=
  if b.length < 12 then .error .tooShort
  else
    match gcmDecrypt OBFUSCATION_KEY (b.take 12) (b.drop 12) with
    | some p => .ok p
    | none => .error .decryptionFailed

/-- Client-side `encrypt_request_object`: serde_json serialization of the
request, then byte-level encryption. -/
def encrypt_request_object (nonce : List Nat) (x : HttpRequest) : List Nat :=
  encryptBytes nonce (serializeHttpRequest x)

/-- Relay-side `encrypt_response_object`: serde_json serialization of the
response, then byte-level encryption. -/
def encrypt_response_object (nonce : List Nat) (r : HttpResponse) : List Nat :=
  encryptBytes nonce (serializeHttpResponse r)

/-- Relay-side `decrypt_request_object` (`src/xllm-proxy/src/main.rs`
lines 104-123): byte-level decryption, then serde_json deserialization of
the `HttpRequest`. -/
def decrypt_request_object (b : List Nat) : Except ProxyError HttpRequest :=
  match decryptBytes b with
  | .error e => .error e
  | .ok p =>
    match parseHttpRequest p with
    | some r => .ok r
    | none => .error .deserializeFailed

/-- Client-side `decrypt_response_object` (`src/xllm/src/utils/proxy/mod.rs`
lines 187-206): byte-level decryption, then serde_json deserialization of
the `HttpResponse`. -/
def decrypt_response_object (b : List Nat) : Except ProxyError HttpResponse :=
  match decryptBytes b with
  | .error e => .error e
  | .ok p =>
    match parseHttpResponse p with
    | some r => .ok r
    | none => .error .deserializeFailed

/-- ASCII uppercasing, modelling Rust `str::to_uppercase` on the ASCII
method names the match below compares against. -/
def toUpperAscii (s : List Nat) : List Nat :=
  s.map (fun b => if 97 ≤ b ∧ b ≤ 122 then b - 32 else b)

/-- ASCII lowercasing, modelling Rust `str::to_lowercase` on ASCII header
names (reqwest header names are ASCII). -/
def toLowerAscii (s : List Nat) : List Nat :=
  s.map (fun b => if 65 ≤ b ∧ b ≤ 90 then b + 32 else b)

def hdrContentType : List Nat := bytesOfAscii "content-type"
def hdrContentLength : List Nat := bytesOfAscii "content-length"
def hdrContentEncoding : List Nat := bytesOfAscii "content-encoding"
def hdrCacheControl : List Nat := bytesOfAscii "cache-control"
def hdrExpires : List Nat := bytesOfAscii "expires"
def hdrEtag : List Nat := bytesOfAscii "etag"
def hdrLastModified : List Nat := bytesOfAscii "last-modified"
def hdrDate : List Nat := bytesOfAscii "date"
def hdrServer : List Nat := bytesOfAscii "server"
def hdrConnection : List Nat := bytesOfAscii "connection"
def hdrKeepAlive : List Nat := bytesOfAscii "keep-alive"
def hdrSts : List Nat := bytesOfAscii "strict-transport-security"
def hdrXcto : List Nat := bytesOfAscii "x-content-type-options"
def hdrXfo : List Nat := bytesOfAscii "x-frame-options"
def hdrXxp : List Nat := bytesOfAscii "x-xss-protection"
def hdrAnthropicDash : List Nat := bytesOfAscii "anthropic-"
def hdrOpenaiDash : List Nat := bytesOfAscii "openai-"
def hdrXRatelimit : List Nat := bytesOfAscii "x-ratelimit"
def hdrXRequestId : List Nat := bytesOfAscii "x-request-id"
def hdrRequestId : List Nat := bytesOfAscii "request-id"
def hdrCfRay : List Nat := bytesOfAscii "cf-ray"
def hdrCfCacheStatus : List Nat := bytesOfAscii "cf-cache-status"
def hdrVia : List Nat := bytesOfAscii "via"
def hdrXRobotsTag : List Nat := bytesOfAscii "x-robots-tag"

/-- The fifteen match arms of `is_generic_header` that return true. -/
def allowedHeaderNames : List (List Nat) :=
  [hdrContentType, hdrContentLength, hdrContentEncoding, hdrCacheControl,
   hdrExpires, hdrEtag, hdrLastModified, hdrDate, hdrServer, hdrConnection,
   hdrKeepAlive, hdrSts, hdrXcto, hdrXfo, hdrXxp]

/-- The five exact names the block arms of `is_generic_header` match. -/
def blockedHeaderNames : List (List Nat) :=
  [hdrRequestId, hdrCfRay, hdrCfCacheStatus, hdrVia, hdrXRobotsTag]

/-- The guard arms of `is_generic_header`: a name beginning with any of the
four blocked byte strings. -/
def hasBlockedHeaderStart (h : List Nat) : Bool :=
  hdrAnthropicDash.isPrefixOf h || hdrOpenaiDash.isPrefixOf h ||
  hdrXRatelimit.isPrefixOf h || hdrXRequestId.isPrefixOf h

/-- Header filter `is_generic_header` (`src/xllm-proxy/src/main.rs` lines
196-219), translated arm for arm in source order: the fifteen allow arms,
then the four `starts_with` guards, then the five exact block names, then
the default arm returning true. -/
def is_generic_header (h : List Nat) : Bool :=
  if h ∈ allowedHeaderNames then true
  else if hasBlockedHeaderStart h then false
  else if h ∈ blockedHeaderNames then false
  else true

/-- The composed classifier the forwarder applies to each response header
(`src/xllm-proxy/src/main.rs` lines 174-177): lowercase the name, then run
`is_generic_header`.  This is the `is_forwardable` contract of the spec. -/
def is_forwardable (h : List Nat) : Bool := is_generic_header (toLowerAscii h)

/-- One outbound HTTP call as built by `execute_http_request`: the verb the
`reqwest` builder was created with, plus url, headers and body copied from
the decrypted request. -/
structure OutboundCall where
  method : List Nat
  url : List Nat
  headers : List (List Nat × List Nat)
  body : List Nat
deriving Repr, DecidableEq

def methodGET : List Nat := bytesOfAscii "GET"
def methodPOST : List Nat := bytesOfAscii "POST"
def methodPUT : List Nat := bytesOfAscii "PUT"
def methodDELETE : List Nat := bytesOfAscii "DELETE"
def methodPATCH : List Nat := bytesOfAscii "PATCH"
def methodHEAD : List Nat := bytesOfAscii "HEAD"

/-- The six verbs the `match` in `execute_http_request` accepts. -/
def supportedMethods : List (List Nat) :=
  [methodGET, methodPOST, methodPUT, methodDELETE, methodPATCH, methodHEAD]

/-- Forwarder `execute_http_request` (`src/xllm-proxy/src/main.rs` lines
141-192).  The outbound network is a parameter `upstream`; the returned
trace lists every outbound call issued, so an empty trace means no network
I/O happened.  The match on `method.to_uppercase()` picks the builder verb
or fails with the unsupported-method error before any call; on a response,
each header whose lowercased name passes `is_generic_header` is kept with
its original case (the code's `value.to_str()` lossless check always
succeeds in this byte-string model). -/
def execute_http_request (upstream : OutboundCall → Except Unit HttpResponse)
    (req : HttpRequest) : Except ProxyError HttpResponse × List OutboundCall :=
  let m := toUpperAscii req.method
  if m ∈ supportedMethods then
    let call : OutboundCall := ⟨m, req.url, req.headers, req.body⟩
    match upstream call with
    | .error _ => (.error .upstreamFailed, [call])
    | .ok resp =>
      let hs := resp.headers.filter (fun kv => is_generic_header (toLowerAscii kv.1))
      (.ok ⟨resp.status_code, hs, resp.body⟩, [call])
  else (.error (.unsupportedMethod m), [])

/-- Relay connection handler `handle_client` (`src/xllm-proxy/src/main.rs`
lines 38-102), modelled on the bytes read from the stream.  `nonce` is the
random nonce `encrypt_response_object` will draw; the result is `.ok
(some bytes)` when a response frame is written back, `.ok none` when the
handler returns `Ok(())` without writing (empty request, deserialize
failure, decrypt failure, forward failure), and `.error` only for the
stream I/O failures the `?` operators propagate, which the pure model
cannot produce. -/
def handle_client (nonce : List Nat) (buffer : List Nat)
    (upstream : OutboundCall → Except Unit HttpResponse) :
    Except Unit (Option (List Nat)) :=
  if buffer = [] then .ok none
  else
    match parseProxyRequest buffer with
    | none => .ok none
    | some pr =>
      match decrypt_request_object pr.request_object with
      | .error _ => .ok none
      | .ok httpReq =>
        match (execute_http_request upstream httpReq).1 with
        | .error _ => .ok none
        | .ok resp =>
          .ok (some (serializeProxyResponse ⟨encrypt_response_object nonce resp⟩))

def c2Nonce : List Nat := [0, 1, 2, 3, 4, 5, 6, 7, 8, 9, 10, 11]

def c2Plain : List Nat := bytesOfAscii "0123456789abcdef"

/-- Output of `encryptBytes c2Nonce c2Plain` (nonce, one ciphertext block,
tag). -/
def c2Valid : List Nat :=
  [0, 1, 2, 3, 4, 5, 6, 7, 8, 9, 10, 11,
   96, 254, 67, 251, 208, 195, 151, 28, 65, 171, 249, 248, 234, 126, 73, 230,
   22, 63, 7, 243, 118, 14, 103, 115, 153, 28, 111, 63, 187, 176, 220, 156]

/-- `c2Valid` with the last ciphertext byte's low bit flipped and the tag
adjusted by `delta * H^2` in GF(2^128) — a GCM forgery computable by
anyone holding the compiled-in key. -/
def c2Tampered : List Nat :=
  [0, 1, 2, 3, 4, 5, 6, 7, 8, 9, 10, 11,
   96, 254, 67, 251, 208, 195, 151, 28, 65, 171, 249, 248, 234, 126, 73, 231,
   153, 190, 132, 61, 228, 96, 141, 77, 163, 174, 206, 55, 213, 168, 154, 119]

/-- What `decryptBytes` returns on `c2Tampered`: the plaintext with its
last byte altered. -/
def c2Forged : List Nat :=
  [48, 49, 50, 51, 52, 53, 54, 55, 56, 57, 97, 98, 99, 100, 101, 103]

/-- Bool form of the suppression classes of `is_generic_header`: one of
the four blocked starts, or one of the five exact block names. -/
def suppressedHeader (h : List Nat) : Bool :=
  hasBlockedHeaderStart h || decide (h ∈ blockedHeaderNames)

/-- Does `pat` occur as a contiguous run inside `l`? -/
def hasRun (pat : List Nat) : List Nat → Bool
  | [] => pat.isPrefixOf []
  | b :: rest => pat.isPrefixOf (b :: rest) || hasRun pat rest

/-- Client nonce of the concrete end-to-end exchange used below. -/
def c7ClientNonce : List Nat := [1, 2, 3, 4, 5, 6, 7, 8, 9, 10, 11, 12]

/-- Inner HTTP request of the concrete end-to-end exchange. -/
def c7Request : HttpRequest := ⟨methodGET, bytesOfAscii "u", [], []⟩

/-- The request frame a client would write for `c7Request`: serialized
`ProxyRequest` with the encrypted request as payload. -/
def c7Buffer : List Nat :=
  serializeProxyRequest
    ⟨bytesOfAscii "u", encryptBytes c7ClientNonce (serializeHttpRequest c7Request)⟩

/-- A stub upstream returning an empty 200 response. -/
def c7Upstream : OutboundCall → Except Unit HttpResponse := fun _ => .ok ⟨200, [], []⟩

/-- Server nonce of the concrete end-to-end exchange. -/
def c7ServerNonce : List Nat := List.replicate 12 0

/-- The response frame the relay writes back in that exchange. -/
def c7Out : List Nat :=
  serializeProxyResponse ⟨encrypt_response_object c7ServerNonce ⟨200, [], []⟩⟩

/-
Byte-level lemmas about the GCM embedding.
-/

theorem natToBytes_length (len n : Nat) : (natToBytes len n).length = len := by
  simp [natToBytes]

theorem keystreamBytes_length (ws : List Nat) (j0 len : Nat) :
    (keystreamBytes ws j0 len).length = len := by
  unfold keystreamBytes
  rw [List.length_take, List.length_flatMap]
  have h : List.map (List.length ∘ natToBytes 16)
      ((List.range ((len + 15) / 16)).map (fun i => aesEncW ws (ctr32 j0 (i + 1)))) =
      List.replicate ((len + 15) / 16) 16 := by
    rw [List.map_map]
    have hc : (List.length ∘ natToBytes 16) ∘ (fun i => aesEncW ws (ctr32 j0 (i + 1))) =
        Function.const Nat 16 := by
      funext i
      simp [Function.comp, natToBytes_length, Function.const]
    rw [hc, List.map_const, List.length_range]
  rw [h, List.sum_const_nat]
  have hd := Nat.div_add_mod (len + 15) 16
  have hm : (len + 15) % 16 < 16 := Nat.mod_lt _ (by norm_num)
  omega

theorem xorBytes_cons (a b : Nat) (p k : List Nat) :
    xorBytes (a :: p) (b :: k) = (a ^^^ b) :: xorBytes p k := rfl

theorem xorBytes_cancel (p k : List Nat) (h : p.length = k.length) :
    xorBytes (xorBytes p k) k = p := by
  induction p generalizing k with
  | nil =>
    cases k with
    | nil => rfl
    | cons b k => simp at h
  | cons a p ih =>
    cases k with
    | nil => simp at h
    | cons b k =>
      rw [xorBytes_cons, xorBytes_cons, Nat.xor_cancel_right,
        ih k (by simpa using h)]

theorem gcmCiphertext_length (key nonce pt : List Nat) :
    (gcmCiphertext key nonce pt).length = pt.length := by
  unfold gcmCiphertext xorBytes
  rw [List.length_zipWith, keystreamBytes_length, Nat.min_self]

/-- Decryption of a well-formed `ciphertext ++ tag` buffer whose tag is the
tag of its ciphertext succeeds with the keystream XOR of the ciphertext. -/
theorem gcmDecrypt_valid (key nonce ct tagB : List Nat) (ht : tagB.length = 16)
    (htag : natToBytes 16 (gcmTag key nonce ct) = tagB) :
    gcmDecrypt key nonce (ct ++ tagB) =
      some (xorBytes ct (keystreamBytes (roundKeys key) (j0Of nonce) ct.length)) := by
  have hs : (ct ++ tagB).length - 16 = ct.length := by
    rw [List.length_append, ht]; omega
  simp only [gcmDecrypt]
  rw [if_neg (by rw [List.length_append, ht]; omega), hs, List.take_left,
    List.drop_left, if_pos htag]

/-- AES-256-GCM round trip (any key, any nonce, any plaintext): decrypting
an encrypt output restores the plaintext. -/
theorem gcm_roundtrip (key nonce pt : List Nat) :
    gcmDecrypt key nonce (gcmEncrypt key nonce pt) = some pt := by
  have h := gcmDecrypt_valid key nonce (gcmCiphertext key nonce pt)
    (natToBytes 16 (gcmTag key nonce (gcmCiphertext key nonce pt)))
    (natToBytes_length _ _) rfl
  show gcmDecrypt key nonce (gcmCiphertext key nonce pt ++
    natToBytes 16 (gcmTag key nonce (gcmCiphertext key nonce pt))) = some pt
  rw [h, gcmCiphertext_length]
  unfold gcmCiphertext
  exact congrArg some (xorBytes_cancel pt _ (keystreamBytes_length _ _ _).symm)

/-- Byte-level envelope round trip with the repository's key: for every
12-byte nonce, `decryptBytes` inverts `encryptBytes`. -/
theorem decryptBytes_encryptBytes (nonce pt : List Nat) (h : nonce.length = 12) :
    decryptBytes (encryptBytes nonce pt) = .ok pt := by
  unfold encryptBytes decryptBytes
  have hlen : (nonce ++ gcmEncrypt OBFUSCATION_KEY nonce pt).length =
      12 + (gcmEncrypt OBFUSCATION_KEY nonce pt).length := by
    rw [List.length_append, h]
  rw [if_neg (by omega)]
  have h1 : (nonce ++ gcmEncrypt OBFUSCATION_KEY nonce pt).take 12 = nonce := by
    rw [← h]; exact List.take_left _ _
  have h2 : (nonce ++ gcmEncrypt OBFUSCATION_KEY nonce pt).drop 12 =
      gcmEncrypt OBFUSCATION_KEY nonce pt := by
    rw [← h]; exact List.drop_left _ _
  rw [h1, h2, gcm_roundtrip]

/-- Byte-level fail-closed behavior on a wrong tag: if the final 16 bytes
differ from the tag of the carried ciphertext, decryption reports the
decryption error (and no data). -/
theorem decryptBytes_tag_mismatch (nonce ct t : List Nat)
    (hn : nonce.length = 12) (ht : t.length = 16)
    (hne : t ≠ natToBytes 16 (gcmTag OBFUSCATION_KEY nonce ct)) :
    decryptBytes (nonce ++ (ct ++ t)) = .error .decryptionFailed := by
  unfold decryptBytes
  have hlen : (nonce ++ (ct ++ t)).length = 12 + (ct.length + 16) := by
    rw [List.length_append, List.length_append, hn, ht]
  rw [if_neg (by omega)]
  have h1 : (nonce ++ (ct ++ t)).take 12 = nonce := by
    rw [← hn]; exact List.take_left _ _
  have h2 : (nonce ++ (ct ++ t)).drop 12 = ct ++ t := by
    rw [← hn]; exact List.drop_left _ _
  rw [h1, h2]
  unfold gcmDecrypt
  have hlen2 : (ct ++ t).length = ct.length + 16 := by
    rw [List.length_append, ht]
  rw [if_neg (by omega)]
  have hsub : (ct ++ t).length - 16 = ct.length := by omega
  simp only [hsub, List.take_left, List.drop_left]
  rw [if_neg (fun hcontra => hne hcontra.symm)]

/-- Byte-level truncation behavior: fewer than 12 bytes is reported as the
too-short error. -/
theorem decryptBytes_short (b : List Nat) (h : b.length < 12) :
    decryptBytes b = .error .tooShort := by
  unfold decryptBytes
  rw [if_pos h]

/-- Byte-level near-truncation behavior: 12 to 27 bytes pass the nonce
length check but cannot carry a 16-byte tag, so GCM decryption fails. -/
theorem decryptBytes_no_tag (b : List Nat) (h12 : 12 ≤ b.length)
    (h28 : b.length < 28) : decryptBytes b = .error .decryptionFailed := by
  unfold decryptBytes
  rw [if_neg (by omega)]
  unfold gcmDecrypt
  rw [if_pos (by rw [List.length_drop]; omega)]

theorem decryptBytes_not_tooShort (b : List Nat) (h : 12 ≤ b.length) :
    decryptBytes b ≠ .error .tooShort := by
  unfold decryptBytes
  rw [if_neg (by omega)]
  cases hg : gcmDecrypt OBFUSCATION_KEY (b.take 12) (b.drop 12) with
  | none => simp
  | some p => simp

theorem decrypt_request_object_not_tooShort (b : List Nat) (h : 12 ≤ b.length) :
    decrypt_request_object b ≠ .error .tooShort := by
  unfold decrypt_request_object
  cases hd : decryptBytes b with
  | error e =>
    have hne := decryptBytes_not_tooShort b h
    rw [hd] at hne
    simpa using hne
  | ok p => cases hp : parseHttpRequest p <;> simp [hp]

theorem decrypt_response_object_not_tooShort (b : List Nat) (h : 12 ≤ b.length) :
    decrypt_response_object b ≠ .error .tooShort := by
  unfold decrypt_response_object
  cases hd : decryptBytes b with
  | error e =>
    have hne := decryptBytes_not_tooShort b h
    rw [hd] at hne
    simpa using hne
  | ok p => cases hp : parseHttpResponse p <;> simp [hp]

/-- C1: round-trip law for the encrypted envelope codec.  For every
`HttpRequest` value `x`, the fixed pre-shared 256-bit key and every 12-byte
nonce the encryptor may draw, decrypting the bytes
`encrypt_request_object` produces yields back exactly the serde_json
serialization of `x`; the same holds for `encrypt_response_object` and the
response serialization (both directions share `decryptBytes`, the byte
level of `decrypt_request_object`/`decrypt_response_object`). -/
theorem claim_C1_roundtrip (nonce : List Nat) (hn : nonce.length = 12)
    (x : HttpRequest) (r : HttpResponse) :
    decryptBytes (encrypt_request_object nonce x) = .ok (serializeHttpRequest x) ∧
    decryptBytes (encrypt_response_object nonce r) = .ok (serializeHttpResponse r) :=
  ⟨decryptBytes_encryptBytes _ _ hn, decryptBytes_encryptBytes _ _ hn⟩

/-- C1 witness: the round trip evaluated at a concrete request, response
and nonce. -/
theorem claim_C1_roundtrip_witness :
    decryptBytes (encrypt_request_object (List.replicate 12 0)
        ⟨methodGET, bytesOfAscii "u", [], []⟩) =
      .ok (serializeHttpRequest ⟨methodGET, bytesOfAscii "u", [], []⟩) ∧
    decryptBytes (encrypt_response_object (List.replicate 12 0) ⟨200, [], []⟩) =
      .ok (serializeHttpResponse ⟨200, [], []⟩) :=
  claim_C1_roundtrip (List.replicate 12 0) (by decide)
    ⟨methodGET, bytesOfAscii "u", [], []⟩ ⟨200, [], []⟩

/-- C2 counterexample: the tamper-rejection claim is false as stated.
`c2Valid` is a genuine `encryptBytes` output; `c2Tampered` agrees with it
on the 12 nonce bytes and differs only in the ciphertext-or-tag portion
(bit flips after byte 12), yet `decryptBytes` accepts it and returns an
altered plaintext.  AES-GCM authentication is only computational: with the
fixed compiled-in key an attacker recovers `H = AES(K, 0)` and compensates
any ciphertext change inside the tag. -/
theorem claim_C2_tamper_counterexample :
    encryptBytes c2Nonce c2Plain = c2Valid ∧
    List.take 12 c2Tampered = List.take 12 c2Valid ∧
    c2Tampered ≠ c2Valid ∧
    decryptBytes c2Tampered = .ok c2Forged ∧
    c2Forged ≠ c2Plain :=
  ⟨by rfl, by decide, by decide, by rfl, by decide⟩

/-- C2 (amended): modifications confined to the 16-byte tag always fail.
For every 12-byte nonce, every ciphertext body and every 16-byte tag value
different from the true tag of that body, both decrypt functions fail with
the decryption (authentication) error and return no data.  (Modifications
that touch the ciphertext body itself can be crafted to pass
authentication when the fixed key is known — see the counterexample — so
the absolute claim holds only for tag-confined tampering.) -/
theorem claim_C2_tag_tamper_fails (nonce ct t : List Nat)
    (hn : nonce.length = 12) (ht : t.length = 16)
    (hne : t ≠ natToBytes 16 (gcmTag OBFUSCATION_KEY nonce ct)) :
    decrypt_request_object (nonce ++ (ct ++ t)) = .error .decryptionFailed ∧
    decrypt_response_object (nonce ++ (ct ++ t)) = .error .decryptionFailed := by
  have hb := decryptBytes_tag_mismatch nonce ct t hn ht hne
  constructor
  · unfold decrypt_request_object
    rw [hb]
  · unfold decrypt_response_object
    rw [hb]

/-- C2 (amended) witness: a concrete wrong tag is rejected. -/
theorem claim_C2_tag_tamper_fails_witness :
    decrypt_request_object (List.replicate 12 0 ++ ([] ++ List.replicate 16 0)) =
      .error .decryptionFailed ∧
    decrypt_response_object (List.replicate 12 0 ++ ([] ++ List.replicate 16 0)) =
      .error .decryptionFailed :=
  claim_C2_tag_tamper_fails (List.replicate 12 0) [] (List.replicate 16 0)
    (by decide) (by decide) (by decide)

/-- C3: truncation check.  Every input shorter than 12 bytes makes both
decrypt functions return the too-short error (the code returns before any
cipher call), and no input of 12 bytes or more ever produces that error. -/
theorem claim_C3_truncation (b : List Nat) :
    (b.length < 12 →
      decrypt_request_object b = .error .tooShort ∧
      decrypt_response_object b = .error .tooShort) ∧
    (12 ≤ b.length →
      decrypt_request_object b ≠ .error .tooShort ∧
      decrypt_response_object b ≠ .error .tooShort) := by
  constructor
  · intro h
    have hb := decryptBytes_short b h
    constructor
    · unfold decrypt_request_object
      rw [hb]
    · unfold decrypt_response_object
      rw [hb]
  · intro h
    exact ⟨decrypt_request_object_not_tooShort b h,
      decrypt_response_object_not_tooShort b h⟩

/-- C3 witness: the two directions evaluated at a 1-byte and a 12-byte
input. -/
theorem claim_C3_truncation_witness :
    (decrypt_request_object [0] = .error .tooShort ∧
     decrypt_response_object [0] = .error .tooShort) ∧
    (decrypt_request_object (List.replicate 12 0) ≠ .error .tooShort ∧
     decrypt_response_object (List.replicate 12 0) ≠ .error .tooShort) :=
  ⟨(claim_C3_truncation [0]).1 (by decide),
   (claim_C3_truncation (List.replicate 12 0)).2 (by decide)⟩

/-- C10: near-truncated inputs are reported as decryption failures, not
truncation.  For every input of length in [12, 28), both decrypt functions
pass the nonce length check, then fail with the decryption error because
the remaining bytes cannot carry the 16-byte GCM tag; the too-short error
is never produced and no plaintext is returned. -/
theorem claim_C10_near_truncation (b : List Nat) (h12 : 12 ≤ b.length)
    (h28 : b.length < 28) :
    decrypt_request_object b = .error .decryptionFailed ∧
    decrypt_response_object b = .error .decryptionFailed := by
  have hb := decryptBytes_no_tag b h12 h28
  constructor
  · unfold decrypt_request_object
    rw [hb]
  · unfold decrypt_response_object
    rw [hb]

/-- C10 witness: a 20-byte input fails with the decryption error. -/
theorem claim_C10_near_truncation_witness :
    decrypt_request_object (List.replicate 20 0) = .error .decryptionFailed ∧
    decrypt_response_object (List.replicate 20 0) = .error .decryptionFailed :=
  claim_C10_near_truncation (List.replicate 20 0) (by decide) (by decide)

theorem allowed_not_suppressed :
    ∀ h ∈ allowedHeaderNames, suppressedHeader h = false := by decide

/-- C5: the header filter policy table.  Every name in the fifteen-entry
allow list is forwardable; every name in one of the suppression classes
(the four blocked starts `anthropic-`, `openai-`, `x-ratelimit`,
`x-request-id`, or the five exact block names `request-id`, `cf-ray`,
`cf-cache-status`, `via`, `x-robots-tag`) is suppressed; every name
outside the suppression classes is forwardable (fail open by default). -/
theorem claim_C5_policy_table :
    (∀ h ∈ allowedHeaderNames, is_generic_header h = true) ∧
    (∀ h : List Nat, suppressedHeader h = true → is_generic_header h = false) ∧
    (∀ h : List Nat, suppressedHeader h = false → is_generic_header h = true) := by
  refine ⟨fun h hmem => by unfold is_generic_header; rw [if_pos hmem], ?_, ?_⟩
  · intro h hs
    have hmem : h ∉ allowedHeaderNames := by
      intro hmem
      have hfalse := allowed_not_suppressed h hmem
      rw [hs] at hfalse
      cases hfalse
    unfold is_generic_header
    simp only [suppressedHeader, Bool.or_eq_true, decide_eq_true_eq] at hs
    rcases hs with hs | hs
    · rw [if_neg hmem, if_pos hs]
    · by_cases hb : hasBlockedHeaderStart h = true
      · rw [if_neg hmem, if_pos hb]
      · rw [if_neg hmem, if_neg hb, if_pos hs]
  · intro h hs
    simp only [suppressedHeader, Bool.or_eq_false_iff, decide_eq_false_iff_not] at hs
    unfold is_generic_header
    by_cases hmem : h ∈ allowedHeaderNames
    · rw [if_pos hmem]
    · rw [if_neg hmem, if_neg (by rw [hs.1]; simp), if_neg hs.2]

/-- C5 witness: the filter evaluated on a suppressed and an unknown name. -/
theorem claim_C5_policy_table_witness :
    is_generic_header (bytesOfAscii "cf-ray") = false ∧
    is_generic_header (bytesOfAscii "x-custom") = true :=
  ⟨claim_C5_policy_table.2.1 (bytesOfAscii "cf-ray") (by decide),
   claim_C5_policy_table.2.2 (bytesOfAscii "x-custom") (by decide)⟩

theorem lowerByte_idem (b : Nat) :
    (fun c => if 65 ≤ c ∧ c ≤ 90 then c + 32 else c)
      ((fun c => if 65 ≤ c ∧ c ≤ 90 then c + 32 else c) b) =
    (fun c => if 65 ≤ c ∧ c ≤ 90 then c + 32 else c) b := by
  by_cases h : 65 ≤ b ∧ b ≤ 90
  · simp only [if_pos h]
    rw [if_neg (by omega)]
  · simp only [if_neg h]

theorem toLowerAscii_idem (s : List Nat) :
    toLowerAscii (toLowerAscii s) = toLowerAscii s := by
  unfold toLowerAscii
  rw [List.map_map]
  apply List.map_congr_left
  intro b _
  exact lowerByte_idem b

/-- C6: the header filter as applied by the forwarder (lowercase, then
`is_generic_header`) is case-insensitive as a function of the header name:
it gives the same verdict on a name and on its lowercased form, and in
particular on `X-Request-Id` and `x-request-id`. -/
theorem claim_C6_case_insensitive :
    (∀ s : List Nat, is_forwardable s = is_forwardable (toLowerAscii s)) ∧
    is_forwardable (bytesOfAscii "X-Request-Id") =
      is_forwardable (bytesOfAscii "x-request-id") := by
  constructor
  · intro s
    unfold is_forwardable
    rw [toLowerAscii_idem]
  · decide

/-- C4: for every request whose uppercased method is not one of the six
supported verbs, `execute_http_request` fails with the unsupported-method
error and the outbound-call trace is empty — no network I/O happens, for
any upstream whatsoever. -/
theorem claim_C4_unsupported_method
    (upstream : OutboundCall → Except Unit HttpResponse) (req : HttpRequest)
    (h : toUpperAscii req.method ∉ supportedMethods) :
    execute_http_request upstream req =
      (.error (.unsupportedMethod (toUpperAscii req.method)), []) := by
  unfold execute_http_request
  rw [if_neg h]

/-- C4 witness: method `TRACE` is rejected with no outbound call. -/
theorem claim_C4_unsupported_method_witness :
    execute_http_request (fun _ => .ok ⟨200, [], []⟩)
        ⟨bytesOfAscii "TRACE", bytesOfAscii "u", [], []⟩ =
      (.error (.unsupportedMethod (toUpperAscii (bytesOfAscii "TRACE"))), []) :=
  claim_C4_unsupported_method _ _ (by decide)

/-- C9: method names are accepted case-insensitively.  When the uppercased
method is one of the six supported verbs, the one outbound call is issued
with the uppercased verb (not the original spelling); and the
unsupported-method error occurs exactly when the uppercased method is
outside that set. -/
theorem claim_C9_method_case_insensitive
    (upstream : OutboundCall → Except Unit HttpResponse) (req : HttpRequest) :
    (toUpperAscii req.method ∈ supportedMethods →
      (execute_http_request upstream req).2 =
        [⟨toUpperAscii req.method, req.url, req.headers, req.body⟩]) ∧
    ((∃ m, (execute_http_request upstream req).1 = .error (.unsupportedMethod m)) ↔
      toUpperAscii req.method ∉ supportedMethods) := by
  constructor
  · intro h
    unfold execute_http_request
    rw [if_pos h]
    cases hc : upstream ⟨toUpperAscii req.method, req.url, req.headers, req.body⟩ <;>
      simp only [hc]
  · constructor
    · rintro ⟨m, hm⟩ hmem
      unfold execute_http_request at hm
      rw [if_pos hmem] at hm
      cases hc : upstream ⟨toUpperAscii req.method, req.url, req.headers, req.body⟩ <;>
        simp [hc] at hm
    · intro hmem
      refine ⟨toUpperAscii req.method, ?_⟩
      unfold execute_http_request
      rw [if_neg hmem]

/-- C9 witness: method `get` issues a call with verb `GET`. -/
theorem claim_C9_method_case_insensitive_witness :
    (execute_http_request (fun _ => .ok ⟨200, [], []⟩)
        ⟨bytesOfAscii "get", bytesOfAscii "u", [], []⟩).2 =
      [⟨toUpperAscii (bytesOfAscii "get"), bytesOfAscii "u", [], []⟩] :=
  (claim_C9_method_case_insensitive (fun _ => .ok ⟨200, [], []⟩)
    ⟨bytesOfAscii "get", bytesOfAscii "u", [], []⟩).1 (by decide)

theorem mem_of_isPrefixOf (pat : List Nat) :
    ∀ l : List Nat, pat.isPrefixOf l = true → ∀ a ∈ pat, a ∈ l := by
  induction pat with
  | nil =>
    intro l _ a ha
    cases ha
  | cons p ps ih =>
    intro l h a ha
    cases l with
    | nil => cases h
    | cons b t =>
      simp only [List.isPrefixOf, Bool.and_eq_true, beq_iff_eq] at h
      rcases List.mem_cons.mp ha with rfl | ha
      · rw [h.1]
        exact List.mem_cons_self b t
      · exact List.mem_cons_of_mem b (ih t h.2 a ha)

theorem hasRun_eq_false (pat l : List Nat) (x : Nat) (hx : x ∈ pat)
    (hnl : x ∉ l) : hasRun pat l = false := by
  induction l with
  | nil =>
    unfold hasRun
    cases pat with
    | nil => cases hx
    | cons p ps => rfl
  | cons b t ih =>
    unfold hasRun
    rw [Bool.or_eq_false_iff]
    constructor
    · cases hp : pat.isPrefixOf (b :: t) with
      | false => rfl
      | true => exact absurd (mem_of_isPrefixOf pat (b :: t) hp x hx) hnl
    · exact ih (fun hmem => hnl (List.mem_cons_of_mem b hmem))

theorem isPrefixOf_append_self (pat l : List Nat) :
    pat.isPrefixOf (pat ++ l) = true := by
  induction pat with
  | nil => cases l <;> rfl
  | cons p ps ih => simp [List.isPrefixOf, ih]

theorem hasRun_of_isPrefixOf (pat l : List Nat) (h : pat.isPrefixOf l = true) :
    hasRun pat l = true := by
  cases l with
  | nil =>
    unfold hasRun
    exact h
  | cons b t =>
    unfold hasRun
    rw [h, Bool.true_or]

theorem hasRun_append_self (l1 pat l2 : List Nat) :
    hasRun pat (l1 ++ (pat ++ l2)) = true := by
  induction l1 with
  | nil => exact hasRun_of_isPrefixOf pat ([] ++ (pat ++ l2)) (isPrefixOf_append_self pat l2)
  | cons b t ih =>
    show hasRun pat (b :: (t ++ (pat ++ l2))) = true
    unfold hasRun
    rw [ih, Bool.or_true]

theorem decBytesAux_digits (fuel : Nat) :
    ∀ n : Nat, ∀ a ∈ decBytesAux fuel n, 48 ≤ a ∧ a ≤ 57 := by
  induction fuel with
  | zero =>
    intro n a ha
    cases ha
  | succ f ih =>
    intro n a ha
    unfold decBytesAux at ha
    by_cases h : n < 10
    · rw [if_pos h] at ha
      simp only [List.mem_singleton] at ha
      omega
    · rw [if_neg h] at ha
      rcases List.mem_append.mp ha with ha | ha
      · exact ih (n / 10) a ha
      · simp only [List.mem_singleton] at ha
        have := Nat.mod_lt n (by norm_num : 0 < 10)
        omega

theorem decBytes_digits (n : Nat) : ∀ a ∈ decBytes n, 48 ≤ a ∧ a ≤ 57 :=
  decBytesAux_digits (n + 1) n

theorem commaJoin_mem (a : Nat) :
    ∀ xs : List (List Nat), a ∈ commaJoin xs → a = 44 ∨ ∃ x ∈ xs, a ∈ x := by
  intro xs
  induction xs with
  | nil => intro ha; cases ha
  | cons x ys ih =>
    intro ha
    cases ys with
    | nil =>
      right
      exact ⟨x, by simp, by simpa [commaJoin] using ha⟩
    | cons y zs =>
      rw [show commaJoin (x :: y :: zs) = x ++ [44] ++ commaJoin (y :: zs) from rfl] at ha
      simp only [List.mem_append, List.mem_singleton] at ha
      rcases ha with (ha | ha) | ha
      · right; exact ⟨x, by simp, ha⟩
      · left; exact ha
      · rcases ih ha with h | ⟨w, hw, hwa⟩
        · left; exact h
        · right; exact ⟨w, List.mem_cons_of_mem x hw, hwa⟩

theorem serializeByteArr_mem (bs : List Nat) (a : Nat)
    (ha : a ∈ serializeByteArr bs) :
    a = 91 ∨ a = 93 ∨ a = 44 ∨ (48 ≤ a ∧ a ≤ 57) := by
  unfold serializeByteArr at ha
  simp only [List.mem_append, List.mem_singleton] at ha
  rcases ha with (ha | ha) | ha
  · left; exact ha
  · rcases commaJoin_mem a (bs.map decBytes) ha with h | ⟨x, hx, hax⟩
    · right; right; left; exact h
    · rcases List.mem_map.mp hx with ⟨n, _, rfl⟩
      right; right; right
      exact decBytes_digits n a hax
  · right; left; exact ha

/-- The serialized response frame never contains the byte `x` (120): its
fixed part is `response_object` punctuation and its payload renders as
decimal digits, commas and brackets. -/
theorem serializeProxyResponse_no_x (r : ProxyResponse) :
    (120 : Nat) ∉ serializeProxyResponse r := by
  intro ha
  unfold serializeProxyResponse at ha
  simp only [List.mem_append, List.mem_singleton] at ha
  rcases ha with (((ha | ha) | ha) | ha) | ha
  · omega
  · exact absurd ha (by decide)
  · omega
  · rcases serializeByteArr_mem r.response_object 120 ha with h | h | h | h <;> omega
  · omega

/-- On every successful exchange the handler's written frame is the
serialization of a `ProxyResponse` (a lone encrypted `response_object`). -/
theorem handle_client_success_shape (nonce buffer : List Nat)
    (upstream : OutboundCall → Except Unit HttpResponse) (out : List Nat)
    (h : handle_client nonce buffer upstream = .ok (some out)) :
    ∃ resp : HttpResponse,
      out = serializeProxyResponse ⟨encrypt_response_object nonce resp⟩ := by
  unfold handle_client at h
  by_cases hb : buffer = []
  · rw [if_pos hb] at h
    simp at h
  · rw [if_neg hb] at h
    cases hp : parseProxyRequest buffer with
    | none => simp [hp] at h
    | some pr =>
      simp only [hp] at h
      cases hd : decrypt_request_object pr.request_object with
      | error e => simp [hd] at h
      | ok hr =>
        simp only [hd] at h
        cases he : (execute_http_request upstream hr).1 with
        | error e => simp [he] at h
        | ok resp =>
          simp only [he, Except.ok.injEq, Option.some.injEq] at h
          exact ⟨resp, h.symm⟩

/-- C7 (amended): the response frame does not repeat the request frame's
envelope shape.  The request frame (`ProxyRequest`) carries the plaintext
`proxy_url` field next to the opaque payload, but the response frame is a
`ProxyResponse` holding only `response_object`: the serialized response
the relay sends never contains a `proxy_url` field (not even the byte
string `proxy_url`), while every serialized request frame does. -/
theorem claim_C7_response_envelope (nonce buffer : List Nat)
    (upstream : OutboundCall → Except Unit HttpResponse) :
    (∀ r : ProxyResponse, hasRun keyProxyUrl (serializeProxyResponse r) = false) ∧
    (∀ q : ProxyRequest, hasRun keyProxyUrl (serializeProxyRequest q) = true) ∧
    (∀ out, handle_client nonce buffer upstream = .ok (some out) →
      hasRun keyProxyUrl out = false) := by
  have hresp : ∀ r : ProxyResponse,
      hasRun keyProxyUrl (serializeProxyResponse r) = false := fun r =>
    hasRun_eq_false _ _ 120 (by decide) (serializeProxyResponse_no_x r)
  refine ⟨hresp, ?_, ?_⟩
  · intro q
    have hjson : jsonStr keyProxyUrl = [34] ++ (keyProxyUrl ++ [34]) := by decide
    show hasRun keyProxyUrl
      ([123] ++ (jsonStr keyProxyUrl ++ ([58] ++ (jsonStr q.proxy_url ++ ([44] ++
        (jsonStr keyRequestObject ++ ([58] ++ (serializeByteArr q.request_object ++
          [125])))))))) = true
    rw [hjson]
    show hasRun keyProxyUrl ([123, 34] ++ (keyProxyUrl ++ ([34] ++ ([58] ++
      (jsonStr q.proxy_url ++ ([44] ++ (jsonStr keyRequestObject ++ ([58] ++
        (serializeByteArr q.request_object ++ [125]))))))))) = true
    exact hasRun_append_self [123, 34] keyProxyUrl _
  · intro out h
    rcases handle_client_success_shape nonce buffer upstream out h with ⟨resp, rfl⟩
    exact hresp _

/-- C7 counterexample: a concrete successful value refuting the claim that
the response frame carries a `proxy_url` alongside the payload — the
serialized `ProxyResponse` for payload `[1, 2]` is exactly the bytes of
the single-field object and contains no `proxy_url` run, while the request
frame for the same payload does. -/
theorem claim_C7_counterexample :
    serializeProxyResponse ⟨[1, 2]⟩ =
      [123, 34, 114, 101, 115, 112, 111, 110, 115, 101, 95, 111, 98, 106,
       101, 99, 116, 34, 58, 91, 49, 44, 50, 93, 125] ∧
    hasRun keyProxyUrl (serializeProxyResponse ⟨[1, 2]⟩) = false ∧
    hasRun keyProxyUrl (serializeProxyRequest ⟨bytesOfAscii "u", [1, 2]⟩) = true :=
  ⟨by decide, by decide, by decide⟩

/-- C7 witness: the handler clause evaluated on a concrete full exchange
(request built, encrypted, framed, decrypted, forwarded to a stub
upstream, re-encrypted): the written frame has no `proxy_url` run. -/
theorem claim_C7_response_envelope_witness :
    hasRun keyProxyUrl c7Out = false :=
  (claim_C7_response_envelope c7ServerNonce c7Buffer c7Upstream).2.2 c7Out (by rfl)

/-- C8: per-exchange failure containment.  For every inbound buffer and
every upstream, the handler returns success (`Ok(())`, modelled `.ok`)
without writing a response when the request bytes are empty, when
deserialization of the `ProxyRequest` fails, when decryption of the
payload fails, or when the outbound forward fails — none of these
propagates an error out of `handle_client` (the accept loop in `main`
only logs handler errors, so no request content can terminate the server
process). -/
theorem claim_C8_failure_containment (nonce buffer : List Nat)
    (upstream : OutboundCall → Except Unit HttpResponse) :
    (buffer = [] → handle_client nonce buffer upstream = .ok none) ∧
    (parseProxyRequest buffer = none →
      handle_client nonce buffer upstream = .ok none) ∧
    (∀ pr e, parseProxyRequest buffer = some pr →
      decrypt_request_object pr.request_object = .error e →
      handle_client nonce buffer upstream = .ok none) ∧
    (∀ pr hr e, parseProxyRequest buffer = some pr →
      decrypt_request_object pr.request_object = .ok hr →
      (execute_http_request upstream hr).1 = .error e →
      handle_client nonce buffer upstream = .ok none) := by
  refine ⟨?_, ?_, ?_, ?_⟩
  · intro hb
    unfold handle_client
    rw [if_pos hb]
  · intro hp
    unfold handle_client
    by_cases hb : buffer = []
    · rw [if_pos hb]
    · rw [if_neg hb]
      simp only [hp]
  · intro pr e hp hd
    unfold handle_client
    by_cases hb : buffer = []
    · rw [if_pos hb]
    · rw [if_neg hb]
      simp only [hp, hd]
  · intro pr hr e hp hd he
    unfold handle_client
    by_cases hb : buffer = []
    · rw [if_pos hb]
    · rw [if_neg hb]
      simp only [hp, hd, he]

/-- C8 witness: the empty request and an undecodable one-byte request both
end as a successful no-op. -/
theorem claim_C8_failure_containment_witness :
    handle_client (List.replicate 12 0) [] (fun _ => .ok ⟨200, [], []⟩) = .ok none ∧
    handle_client (List.replicate 12 0) [0] (fun _ => .ok ⟨200, [], []⟩) = .ok none :=
  ⟨(claim_C8_failure_containment (List.replicate 12 0) [] _).1 rfl,
   (claim_C8_failure_containment (List.replicate 12 0) [0] _).2.1 (by rfl)⟩
